import Mathlib

/-!
Verification development for the SAI chat-completion adapter
(`sai_handler.py`).  Python strings are embedded as lists of characters
(`Str`), dictionaries with optional keys as structures of `Option` fields,
raised exceptions as `Option`/`none` results, and the upstream HTTP world as
an explicit `HttpResult` value chosen by a `server` function.  Every
definition mirrors the corresponding Python function of the source file and
keeps its name (camel-cased).
-/

namespace SAI

/-- Python `str` is embedded as a list of characters. -/
abbrev Str := List Char

/-- Truthiness of a Python `Optional[str]`: `None` and the empty string are
falsy, every other string is truthy. -/
def truthy : Option Str → Bool
  | some s => !s.isEmpty
  | none => false

/-- Smallest absolute position `≥ k` at which `S` starts inside the scanned
list, scanning `c` (the tail of the original list that starts at absolute
position `k`).  Embeds the search performed by Python `str.find(S, k)`. -/
def findAux (S : Str) : Str → Nat → Option Nat
  | [], k => if S.isPrefixOf [] then some k else none
  | c :: t, k => if S.isPrefixOf (c :: t) then some k else findAux S t (k + 1)

/-- Python `S in c` (substring containment). -/
def containsSub (S c : Str) : Bool := (findAux S c 0).isSome

/-- Python `c.find(S, i)`, returning `none` instead of `-1`. -/
def findFrom (S c : Str) (i : Nat) : Option Nat := findAux S (c.drop i) i

/-- Python `str.strip()`: drop whitespace from both ends. -/
def pyStrip (s : Str) : Str :=
  ((s.dropWhile Char.isWhitespace).reverse.dropWhile Char.isWhitespace).reverse

/-- Python `str.lower()` (ASCII view, enough for the literals compared). -/
def pyLower (s : Str) : Str := s.map Char.toLower

/-- The fixed wrapper text the IDE plugin puts in front of the user text
(`plugin_prefix` in `_extract_plugin_wrapped_message`). -/
def pluginIntro : Str :=
  ("Determine if the following context is required to solve the task in the user\x27s input in the chat session: \"").toList

/-- The marker that closes the wrapped user text
(`plugin_suffix_start` in `_extract_plugin_wrapped_message`). -/
def pluginMarker : Str := ("\"\nContext:").toList

/-- Embeds `_extract_plugin_wrapped_message`: detect the IDE wrapper and extract the
original text between the quote after the intro and the first marker. -/
def extractPluginWrappedMessage (content : Str) : Bool × Str :=
  if pluginIntro.isPrefixOf content && containsSub pluginMarker content then
    let startIdx := pluginIntro.length
    match findFrom pluginMarker content startIdx with
    | some endIdx =>
        if startIdx < endIdx then
          (true, (content.drop startIdx).take (endIdx - startIdx))
        else (false, content)
    | none => (false, content)
  else (false, content)

/-- The content kept for a message after plugin detection (the second
component of `_extract_plugin_wrapped_message`). -/
def unwrapContent (content : Str) : Str := (extractPluginWrappedMessage content).2

/-- An inbound chat message: a Python dict whose `role` and `content` keys
may be absent. -/
structure RawMsg where
  role : Option Str
  content : Option Str
deriving DecidableEq

/-- A message in the upstream SAI schema (`_convert_to_sai_format` output). -/
structure SaiMsg where
  content : Str
  role : Option Str
  id : Nat
deriving DecidableEq

/-- Per-message step of `_process_plugin_messages`: replace the content with
the unwrapped original text when the plugin wrapper is detected. -/
def processPluginMsg (m : RawMsg) : RawMsg :=
  match m.content with
  | some c => { m with content := some (unwrapContent c) }
  | none => m

/-- Embeds `_process_plugin_messages` restricted to its effect on the message list
(the returned statistics only feed logging). -/
def processPluginMessages (msgs : List RawMsg) : List RawMsg :=
  msgs.map processPluginMsg

/-- Embeds `_validate_message_structure`: every element must carry both keys. -/
def validateMessageStructure (msgs : List RawMsg) : Bool :=
  msgs.all fun m => m.role.isSome && m.content.isSome

/-- Embeds `_convert_to_sai_format`, with the timestamp `int(time.time()*1000)`
abstracted as `base`; ids are `base + index` in list order. -/
def convertToSaiFormatAux (base : Nat) : Nat → List RawMsg → List SaiMsg
  | _, [] => []
  | idx, m :: rest =>
      { content := m.content.getD [], role := m.role, id := base + idx }
        :: convertToSaiFormatAux base (idx + 1) rest

/-- Embeds `_convert_to_sai_format` (enumeration starts at index 0). -/
def convertToSaiFormat (base : Nat) (msgs : List RawMsg) : List SaiMsg :=
  convertToSaiFormatAux base 0 msgs

/-- Embeds `_prepare_messages`: `none` models a raised `ValueError`.  Plugin
unwrapping mutates the list before validation and before the system prompt
is separated, exactly as in the source. -/
def prepareMessages (base : Nat) (msgs : List RawMsg) : Option (Str × List SaiMsg) :=
  if msgs.isEmpty then none
  else
    let processed0 := processPluginMessages msgs
    if validateMessageStructure processed0 then
      match processed0 with
      | [] => none
      | first :: rest =>
          if first.role = some (("system").toList) then
            some (first.content.getD [], convertToSaiFormat base rest)
          else
            some ([], convertToSaiFormat base processed0)
    else none

/-- The process-wide default credentials (`SAI_KEY`, `SAI_COOKIE`). -/
structure Config where
  saiKey : Option Str
  saiCookie : Option Str
deriving DecidableEq

/-- Embeds `_is_valid_api_key`: non-empty after trimming and not the placeholder
`raspberry` (case-insensitive). -/
def isValidApiKey (apiKey : Str) : Bool :=
  if apiKey.isEmpty then false
  else
    let trimmed := pyStrip apiKey
    if trimmed.isEmpty || pyLower trimmed = ("raspberry").toList then false
    else true

/-- The two metadata locations a caller-supplied credential can arrive in. -/
structure Kwargs where
  litellmMetadataUserApiKey : Option Str
  headersUserApiKey : Option Str
deriving DecidableEq

/-- Embeds `_extract_from_litellm_params`: the located value, when truthy. -/
def extractFromLitellmParams (k : Kwargs) : Option Str :=
  match k.litellmMetadataUserApiKey with
  | some v => if !v.isEmpty then some v else none
  | none => none

/-- Embeds `_extract_from_headers`: the located value, when truthy. -/
def extractFromHeaders (k : Kwargs) : Option Str :=
  match k.headersUserApiKey with
  | some v => if !v.isEmpty then some v else none
  | none => none

/-- Validation part of `_extract_user_api_key`, applied to the value found in
one of the two locations: rejected values become `none`, accepted values are
returned trimmed. -/
def extractUserApiKey (raw : Option Str) : Option Str :=
  match raw with
  | none => none
  | some v => if isValidApiKey v then some (pyStrip v) else none

/-- Full `_extract_user_api_key`: first location wins, then validation. -/
def extractUserApiKeyFull (k : Kwargs) : Option Str :=
  extractUserApiKey
    (match extractFromLitellmParams k with
     | some v => some v
     | none => extractFromHeaders k)

/-- Embeds `_determine_auth_method`: returns
`(custom_cookie, api_key_to_use, auth_type)`. -/
def determineAuthMethod (cfg : Config) (userApiKey : Option Str) :
    Option Str × Option Str × Str :=
  if truthy userApiKey && containsSub (("Cookies").toList) (userApiKey.getD []) then
    (userApiKey, none, ("Cookie personalizada").toList)
  else
    (none,
     if truthy userApiKey then userApiKey else cfg.saiKey,
     if truthy userApiKey then ("API Key personalizada").toList
     else ("API Key por defecto").toList)

/-- The auth headers attached to one outbound HTTP request (only the two
credential headers matter; the three constant headers are always present). -/
structure AuthHeaders where
  xApiKey : Option Str
  cookie : Option Str
deriving DecidableEq

/-- Embeds `_setup_request_headers`: pick exactly one credential header; `none`
models the no-credential failure path (no request is issued then). -/
def setupRequestHeaders (cfg : Config) (useApiKey : Bool)
    (customApiKey customCookie : Option Str) : Option AuthHeaders :=
  if useApiKey && (truthy customApiKey || truthy cfg.saiKey) then
    some { xApiKey := some (if truthy customApiKey then customApiKey.getD []
                            else cfg.saiKey.getD []),
           cookie := none }
  else if truthy customCookie then
    some { xApiKey := none, cookie := customCookie }
  else if truthy cfg.saiCookie then
    some { xApiKey := none, cookie := cfg.saiCookie }
  else none

/-- Upstream token-count headers of an HTTP response (raw header values;
absent keys are `none`). -/
structure RespHeaders where
  prompttokens : Option Str
  completiontokens : Option Str
  model : Option Str
deriving DecidableEq

/-- What one HTTP POST can come back as: a 2xx body with headers, a non-2xx
status with a body, or a transport-level failure. -/
inductive HttpResult where
  | ok (body : Str) (headers : RespHeaders)
  | httpError (status : Nat) (body : Str)
  | timeout
  | networkError
deriving DecidableEq

/-- The request payload built by `_call_sai`: `chatMessages` is omitted
(`none`) when the converted history is empty. -/
structure Payload where
  system : Str
  user : Str
  chatMessages : Option (List SaiMsg)
deriving DecidableEq

/-- Payload construction in `_call_sai`. -/
def buildPayload (system user : Str) (chat : List SaiMsg) : Payload :=
  { system := system, user := user,
    chatMessages := if chat.isEmpty then none else some chat }

/-- Python `int(s)` on a header value: optional sign followed by digits;
`none` models a `ValueError`. -/
def strToIntOpt (s : Str) : Option Int :=
  match s with
  | [] => none
  | '-' :: ds =>
      if ds ≠ [] && ds.all Char.isDigit then
        some (-(Int.ofNat (ds.foldl (fun n c => n * 10 + (c.toNat - 48)) 0)))
      else none
  | ds =>
      if ds.all Char.isDigit then
        some (Int.ofNat (ds.foldl (fun n c => n * 10 + (c.toNat - 48)) 0))
      else none

/-- Embeds `int(resp.headers.get(name, 0))` guarded by `try/except`: missing or
non-numeric header values become 0. -/
def parseTokenHeader (v : Option Str) : Int :=
  match v with
  | none => 0
  | some s => (strToIntOpt s).getD 0

/-- The usage header record `_extract_response_headers` builds from a 2xx
response (the wall-clock fields `response_time`, `tokens_per_second` and
`status_code`/`response_length` are measurement plumbing and not modelled). -/
structure UsageHeaders where
  prompt_tokens : Int
  completion_tokens : Int
  model : Str
deriving DecidableEq

/-- Embeds `_extract_response_headers`. -/
def extractResponseHeaders (h : RespHeaders) : UsageHeaders :=
  { prompt_tokens := parseTokenHeader h.prompttokens
  , completion_tokens := parseTokenHeader h.completiontokens
  , model := h.model.getD (("unknown").toList) }

/-- Sentinel value returned by `_handle_http_401_error`. -/
def UNAUTHORIZED_ERROR : Str := ("UNAUTHORIZED_ERROR").toList

/-- Sentinel value returned by `_handle_http_500_error` for over-long
prompts. -/
def PROMPT_TOO_LONG : Str := ("PROMPT_TOO_LONG").toList

/-- Sentinel value returned by `_handle_http_500_error` otherwise. -/
def HTTP_500_ERROR : Str := ("HTTP_500_ERROR").toList

/-- Embeds `_handle_http_429_error`: both branches (the test-template rate-limit
body and every other 429 body) return the same `(None, None)` value; only
the log text differs. -/
def handleHttp429Error (body : Str) : Option Str × Option UsageHeaders :=
  if containsSub (("Test template usage limit exceeded").toList) body then
    (none, none)
  else
    (none, none)

/-- Embeds `_handle_http_500_error`. -/
def handleHttp500Error (body : Str) : Option Str × Option UsageHeaders :=
  if containsSub (("prompt is too long").toList) (pyLower body)
      || containsSub (("openaicompatible").toList) (pyLower body) then
    (some PROMPT_TOO_LONG, none)
  else
    (some HTTP_500_ERROR, none)

/-- Embeds `_handle_request_exceptions` for an HTTP error status. -/
def classifyHttpError (status : Nat) (body : Str) : Option Str × Option UsageHeaders :=
  if status = 401 then (some UNAUTHORIZED_ERROR, none)
  else if status = 429 then handleHttp429Error body
  else if status = 500 then handleHttp500Error body
  else (none, none)

/-- Embeds `_make_request`: build headers, issue the POST (the upstream world is the
`server` function), classify the outcome.  The final list records the auth
headers of every HTTP call actually issued. -/
def makeRequest (cfg : Config) (server : Payload → AuthHeaders → HttpResult)
    (payload : Payload) (useApiKey : Bool)
    (customApiKey customCookie : Option Str) :
    (Option Str × Option UsageHeaders) × List AuthHeaders :=
  match setupRequestHeaders cfg useApiKey customApiKey customCookie with
  | none => ((none, none), [])
  | some hd =>
      match server payload hd with
      | .ok body respHeaders => ((some body, some (extractResponseHeaders respHeaders)), [hd])
      | .httpError status body => (classifyHttpError status body, [hd])
      | .timeout => ((none, none), [hd])
      | .networkError => ((none, none), [hd])

/-- Embeds `_execute_request_with_retry`: one primary attempt, plus — only in the
API-key branch, only when the primary classified to `None` and a default
cookie exists — one fallback attempt with the default cookie.  Returns
`(response, response_headers, auth_method_used)` and the issued-call trace. -/
def executeRequestWithRetry (cfg : Config)
    (server : Payload → AuthHeaders → HttpResult) (payload : Payload)
    (customCookie apiKeyToUse userApiKey : Option Str) :
    (Option Str × Option UsageHeaders × Str) × List AuthHeaders :=
  if truthy customCookie then
    let ((r, h), t) := makeRequest cfg server payload false none customCookie
    ((r, h, ("Cookie personalizada del usuario").toList), t)
  else if truthy apiKeyToUse then
    let ((r, h), t) := makeRequest cfg server payload true apiKeyToUse none
    let apiKeyType : Str :=
      if truthy userApiKey then ("personalizada del usuario").toList
      else ("del sistema (SAI_KEY)").toList
    let authUsed : Str := ("API Key (").toList ++ apiKeyType ++ (")").toList
    if r = some UNAUTHORIZED_ERROR then
      ((r, h, authUsed), t)
    else if r = none && truthy cfg.saiCookie then
      let ((r2, h2), t2) := makeRequest cfg server payload false none none
      ((r2, h2, ("Cookie (fallback desde API Key)").toList), t ++ t2)
    else
      ((r, h, authUsed), t)
  else
    let ((r, h), t) := makeRequest cfg server payload false none none
    ((r, h, ("Cookie (única opción disponible)").toList), t)

/-- Diagnostic body `_build_auth_error_message` returns when the attempted
method mentions an API key. -/
def msg401ApiKey : Str :=
  ("🔐 **Error de Autenticación (HTTP 401)**\n\nLa **API Key** proporcionada no es válida o ha expirado.\n\n**Acciones sugeridas:**\n1. Verifique que la API Key esté correctamente configurada en SAI_KEY\n2. Genere una nueva API Key desde el panel de administración de SAI\n3. Actualice la variable de entorno SAI_KEY con la nueva clave\n4. Reinicie el servicio después de actualizar las credenciales\n\nSi el problema persiste, contacte al administrador del sistema.").toList

/-- Diagnostic body for a rejected cookie. -/
def msg401Cookie : Str :=
  ("🔐 **Error de Autenticación (HTTP 401)**\n\nLa **Cookie de sesión** proporcionada no es válida o ha expirado.\n\n**Acciones sugeridas:**\n1. Verifique que la Cookie esté correctamente configurada en SAI_COOKIE\n2. Inicie sesión nuevamente en SAI y obtenga una nueva cookie de sesión\n3. Actualice la variable de entorno SAI_COOKIE con la nueva cookie\n4. Reinicie el servicio después de actualizar las credenciales\n\nSi el problema persiste, contacte al administrador del sistema.").toList

/-- Generic 401 diagnostic body. -/
def msg401Generic : Str :=
  ("🔐 **Error de Autenticación (HTTP 401)**\n\nLas credenciales de autenticación proporcionadas no son válidas o han expirado.\n\n**Acciones sugeridas:**\n1. Verifique que SAI_KEY o SAI_COOKIE estén correctamente configurados\n2. Genere nuevas credenciales desde el panel de SAI\n3. Actualice las variables de entorno correspondientes\n4. Reinicie el servicio después de actualizar las credenciales\n\nSi el problema persiste, contacte al administrador del sistema.").toList

/-- Embeds `_build_auth_error_message`. -/
def buildAuthErrorMessage (authMethodUsed : Str) : Str :=
  if containsSub (("API Key").toList) authMethodUsed then msg401ApiKey
  else if containsSub (("Cookie").toList) authMethodUsed then msg401Cookie
  else msg401Generic

/-- The usage record attached to translated results. -/
structure UsageData where
  prompt_tokens : Int
  completion_tokens : Int
  total_tokens : Int
  model : Str
deriving DecidableEq

/-- The all-zero usage record used on every failure path. -/
def zeroUsage : UsageData :=
  { prompt_tokens := 0, completion_tokens := 0, total_tokens := 0,
    model := ("unknown").toList }

/-- Diagnostic body for the over-long-context result (embeds the history
length like the Python f-string does). -/
def msgTooLong (n : Nat) : Str :=
  ("⚠️ **Contexto demasiado largo**\n\nEl historial de conversación excede el límite del modelo (").toList
  ++ (Nat.repr n).toList
  ++ (" mensajes).\n**Acciones sugeridas:**\n1. Reduzca el número de mensajes en el historial\n2. Inicie una nueva conversación\n3. Resuma el contexto anterior en un mensaje más corto").toList

/-- Diagnostic body for an uncontrolled HTTP 500. -/
def msg500 : Str :=
  ("❌ **Error interno del servidor SAI (HTTP 500)**\n\nEl servidor SAI encontró un error inesperado al procesar la solicitud.\n**Posibles causas:**\n1. Error interno del modelo o servicio\n2. Configuración incorrecta del template\n3. Problema temporal del servidor\n\nPor favor, intente nuevamente. Si el problema persiste, contacte al administrador.").toList

/-- Diagnostic body when no response was obtained at all. -/
def msgNoResponse : Str :=
  ("❌ **Error de conexión con SAI**\n\nNo se pudo obtener respuesta del servidor SAI.\n**Posibles causas:**\n1. Problemas de red o conectividad\n2. Credenciales de autenticación inválidas\n3. Servicio SAI temporalmente no disponible\n\nPor favor, intente nuevamente en unos momentos.").toList

/-- Embeds `_handle_error_response`: maps the sentinel responses and the absent
response to a `(text, finish_reason, usage)` triple; `none` means the
response is a success and the caller continues. -/
def handleErrorResponse (response : Option Str) (authMethodUsed : Str)
    (chatMessagesLen : Nat) : Option (Str × Str × UsageData) :=
  if response = some UNAUTHORIZED_ERROR then
    some (buildAuthErrorMessage authMethodUsed, ("error").toList, zeroUsage)
  else if response = some PROMPT_TOO_LONG then
    some (msgTooLong chatMessagesLen, ("length").toList, zeroUsage)
  else if response = some HTTP_500_ERROR then
    some (msg500, ("error").toList, zeroUsage)
  else if response = none then
    some (msgNoResponse, ("error").toList, zeroUsage)
  else none

/-- Embeds `_update_usage_data`. -/
def updateUsageData (responseHeaders : Option UsageHeaders) : UsageData :=
  match responseHeaders with
  | none => zeroUsage
  | some h =>
      { prompt_tokens := h.prompt_tokens
      , completion_tokens := h.completion_tokens
      , total_tokens := h.prompt_tokens + h.completion_tokens
      , model := h.model }

/-- Embeds `_call_sai`: build the payload, resolve the auth method, run the retry
engine, translate the outcome.  Also returns the issued-call trace. -/
def callSai (cfg : Config) (server : Payload → AuthHeaders → HttpResult)
    (system user : Str) (chatMessages : List SaiMsg)
    (userApiKey : Option Str) : (Str × Str × UsageData) × List AuthHeaders :=
  let payload := buildPayload system user chatMessages
  let res := determineAuthMethod cfg userApiKey
  let run := executeRequestWithRetry cfg server payload res.1 res.2.1 userApiKey
  let response := run.1.1
  let responseHeaders := run.1.2.1
  let authMethodUsed := run.1.2.2
  match handleErrorResponse response authMethodUsed chatMessages.length with
  | some err => (err, run.2)
  | none => ((response.getD [], ("stop").toList, updateUsageData responseHeaders), run.2)

/-- The payload-building part of `completion`: plugin unwrapping mutates the
message list in place, so `messages[-1]["content"]` reads the unwrapped
content.  `none` models a raised `ValueError`. -/
def completionPayload (base : Nat) (msgs : List RawMsg) : Option Payload :=
  if msgs.isEmpty then none
  else
    match prepareMessages base msgs with
    | none => none
    | some (system, chat) =>
        match (processPluginMessages msgs).getLast? with
        | some lastM => some (buildPayload system (lastM.content.getD []) chat)
        | none => none

/-- One synthetic streaming chunk (`GenericStreamingChunk` fields used by
`astreaming`; the constant `usage` payload is attached to every chunk and
not repeated here). -/
structure Chunk where
  text : Str
  index : Nat
  is_final : Bool
  finish_reason : Option Str
deriving DecidableEq

/-- The `astreaming` slicing loop
`for idx, start in enumerate(range(0, len(text), CHUNK_SIZE))`,
with `CHUNK_SIZE = 50`, unrolled from position `start` with next index
`idx`. -/
def streamChunksFrom (fr : Option Str) (text : Str) : Nat → Nat → List Chunk :=
  fun idx start =>
    if h : start < text.length then
      { text := (text.drop start).take 50
      , index := idx
      , is_final := decide (text.length ≤ start + 50)
      , finish_reason := if text.length ≤ start + 50 then fr else none }
        :: streamChunksFrom fr text (idx + 1) (start + 50)
    else []
termination_by _ start => text.length - start
decreasing_by simp_wf; omega

/-- The full chunk sequence `astreaming` yields for a resolved completion
text with finish reason `fr`. -/
def streamChunks (fr : Option Str) (text : Str) : List Chunk :=
  streamChunksFrom fr text 0 0

/-! ### Concrete scenario data -/

/-- A plugin-wrapped content whose inner user text is the single letter X. -/
def wrappedX : Str := pluginIntro ++ ("X").toList ++ pluginMarker

/-- A single system message whose content is plugin-wrapped. -/
def wrappedSystemMsgs : List RawMsg :=
  [{ role := some (("system").toList), content := some wrappedX }]

/-- A two-message conversation: a system prompt and a user question. -/
def plainMsgs : List RawMsg :=
  [{ role := some (("system").toList), content := some (("S").toList) },
   { role := some (("user").toList), content := some (("hello").toList) }]

/-- Default credentials with both a key and a cookie configured. -/
def cfgBoth : Config :=
  { saiKey := some (("k1").toList), saiCookie := some (("ck1").toList) }

/-- Empty upstream usage headers. -/
def noHeaders : RespHeaders :=
  { prompttokens := none, completiontokens := none, model := none }

/-- An upstream that answers a Key-authenticated request with HTTP 429 and a
body that does not contain the test-template rate-limit message, and answers
a Cookie-authenticated request with 200. -/
def server429Other : Payload → AuthHeaders → HttpResult := fun _ h =>
  if h.xApiKey.isSome then .httpError 429 (("quota exceeded").toList)
  else .ok (("hola").toList) noHeaders

/-- An upstream that times out on a Key-authenticated request and answers a
Cookie-authenticated request with 200. -/
def serverTimeoutKey : Payload → AuthHeaders → HttpResult := fun _ h =>
  if h.xApiKey.isSome then .timeout
  else .ok (("hola").toList) noHeaders

/-- An upstream that answers every request with HTTP 401. -/
def server401 : Payload → AuthHeaders → HttpResult :=
  fun _ _ => .httpError 401 []

/-! ### Helper lemmas about the substring search -/

/-- A successful search result is minimal: `findAux` returns the first
position at or after `k` where `S` starts. -/
theorem findAux_some_spec (S : Str) : ∀ (c : Str) (k e : Nat),
    findAux S c k = some e →
    k ≤ e ∧ e - k ≤ c.length ∧ S.isPrefixOf (c.drop (e - k)) = true ∧
      ∀ j, j < e - k → ¬ (S.isPrefixOf (c.drop j) = true) := by
  intro c
  induction c with
  | nil =>
      intro k e h
      unfold findAux at h
      by_cases hp : S.isPrefixOf ([] : Str) = true
      · simp [hp] at h
        subst h
        refine ⟨Nat.le_refl _, by simp, by simpa using hp, ?_⟩
        intro j hj
        omega
      · simp [hp] at h
  | cons a t ih =>
      intro k e h
      unfold findAux at h
      by_cases hp : S.isPrefixOf (a :: t) = true
      · simp [hp] at h
        subst h
        refine ⟨Nat.le_refl _, by simp, by simpa using hp, ?_⟩
        intro j hj
        omega
      · simp [hp] at h
        obtain ⟨h1, h2, h3, h4⟩ := ih (k + 1) e h
        refine ⟨by omega, by simp; omega, ?_, ?_⟩
        · have : e - k = (e - (k + 1)) + 1 := by omega
          rw [this]
          simpa using h3
        · intro j hj
          match j with
          | 0 => simpa using hp
          | j' + 1 =>
              have : (a :: t).drop (j' + 1) = t.drop j' := by simp
              rw [this]
              exact h4 j' (by omega)

/-- A failed search means `S` starts nowhere in the scanned list. -/
theorem findAux_none_spec (S : Str) : ∀ (c : Str) (k : Nat),
    findAux S c k = none → ∀ j, S.isPrefixOf (c.drop j) = false := by
  intro c
  induction c with
  | nil =>
      intro k h j
      unfold findAux at h
      by_cases hp : S.isPrefixOf ([] : Str) = true
      · simp [hp] at h
      · rw [List.drop_nil]
        exact Bool.eq_false_iff.mpr hp
  | cons a t ih =>
      intro k h j
      unfold findAux at h
      by_cases hp : S.isPrefixOf (a :: t) = true
      · simp [hp] at h
      · simp [hp] at h
        match j with
        | 0 =>
            rw [List.drop_zero]
            exact Bool.eq_false_iff.mpr hp
        | j' + 1 =>
            have : (a :: t).drop (j' + 1) = t.drop j' := by simp
            rw [this]
            exact ih (k + 1) h j'

/-- Containment as existence of a starting position. -/
theorem containsSub_iff_exists (S c : Str) :
    containsSub S c = true ↔ ∃ j, S.isPrefixOf (c.drop j) = true := by
  unfold containsSub
  constructor
  · intro h
    cases hf : findAux S c 0 with
    | none => rw [hf] at h; simp at h
    | some e =>
        obtain ⟨_, _, h3, _⟩ := findAux_some_spec S c 0 e hf
        exact ⟨e, by simpa using h3⟩
  · rintro ⟨j, hj⟩
    cases hf : findAux S c 0 with
    | none => exact absurd hj (by simp [findAux_none_spec S c 0 hf j])
    | some e => simp

/-- Containment agrees with the infix relation on lists. -/
theorem containsSub_iff_isPart (S c : Str) :
    containsSub S c = true ↔ S <:+: c := by
  rw [containsSub_iff_exists]
  constructor
  · rintro ⟨j, hj⟩
    have hpre : S <+: c.drop j := List.isPrefixOf_iff_prefix.mp hj
    exact List.infix_iff_prefix_suffix.mpr ⟨c.drop j, hpre, List.drop_suffix j c⟩
  · intro h
    obtain ⟨t, hpre, hsuf⟩ := List.infix_iff_prefix_suffix.mp h
    obtain ⟨p, hp⟩ := hsuf
    refine ⟨p.length, ?_⟩
    have : c.drop p.length = t := by
      rw [← hp]
      simp
    rw [this]
    exact List.isPrefixOf_iff_prefix.mpr hpre

/-- The slice cut off at the first occurrence of `S` cannot itself contain
`S`: the search stopped at the earliest occurrence. -/
theorem containsSub_slice_false (S c : Str) (hS : S ≠ []) (startIdx e : Nat)
    (hf : findAux S (c.drop startIdx) startIdx = some e) :
    containsSub S ((c.drop startIdx).take (e - startIdx)) = false := by
  obtain ⟨hke, hlen, hpre, hmin⟩ := findAux_some_spec S (c.drop startIdx) startIdx e hf
  by_contra hcon
  have hcon' : containsSub S ((c.drop startIdx).take (e - startIdx)) = true := by
    revert hcon
    cases containsSub S ((c.drop startIdx).take (e - startIdx)) <;> simp
  rw [containsSub_iff_exists] at hcon'
  obtain ⟨p, hp⟩ := hcon'
  have hdt : ((c.drop startIdx).take (e - startIdx)).drop p
      = ((c.drop startIdx).drop p).take (e - startIdx - p) := by
    rw [List.drop_take]
  rw [hdt] at hp
  have hp' : S <+: ((c.drop startIdx).drop p).take (e - startIdx - p) :=
    List.isPrefixOf_iff_prefix.mp hp
  have hlenS : 1 ≤ S.length := by
    cases S with
    | nil => exact absurd rfl hS
    | cons x xs => simp
  have hple : S.length ≤ (e - startIdx - p) := by
    have := hp'.length_le
    have htl : (((c.drop startIdx).drop p).take (e - startIdx - p)).length
        ≤ e - startIdx - p := by simp
    omega
  have hplt : p < e - startIdx := by omega
  have hfull : S <+: (c.drop startIdx).drop p := by
    have htake : ((c.drop startIdx).drop p).take (e - startIdx - p)
        <+: (c.drop startIdx).drop p := List.take_prefix _ _
    exact hp'.trans htake
  exact hmin p hplt ( List.isPrefixOf_iff_prefix.mpr hfull)

/-- The plugin marker is a non-empty string. -/
theorem pluginMarker_ne_nil : pluginMarker ≠ [] := by decide

/-- A content without the marker is left unchanged by the unwrap step. -/
theorem unwrapContent_of_not_contains (c : Str)
    (h : containsSub pluginMarker c = false) : unwrapContent c = c := by
  unfold unwrapContent extractPluginWrappedMessage
  rw [h]
  simp

/-- C7: plugin-unwrapping is idempotent — applying
`_extract_plugin_wrapped_message` to an already-unwrapped content leaves it
unchanged, for every string content. -/
theorem c7_unwrap_idempotent (c : Str) :
    unwrapContent (unwrapContent c) = unwrapContent c := by
  by_cases hcond :
      (pluginIntro.isPrefixOf c && containsSub pluginMarker c) = true
  · cases hfind : findFrom pluginMarker c pluginIntro.length with
    | none =>
        have hc : unwrapContent c = c := by
          unfold unwrapContent extractPluginWrappedMessage
          simp [hcond, hfind]
        rw [hc]
        exact hc
    | some e =>
        by_cases hlt : pluginIntro.length < e
        · have hc : unwrapContent c
              = (c.drop pluginIntro.length).take (e - pluginIntro.length) := by
            unfold unwrapContent extractPluginWrappedMessage
            simp [hcond, hfind, hlt]
          rw [hc]
          apply unwrapContent_of_not_contains
          exact containsSub_slice_false pluginMarker c pluginMarker_ne_nil
            pluginIntro.length e hfind
        · have hc : unwrapContent c = c := by
            unfold unwrapContent extractPluginWrappedMessage
            simp [hcond, hfind, hlt]
          rw [hc]
          exact hc
  · have hc : unwrapContent c = c := by
      unfold unwrapContent extractPluginWrappedMessage
      simp [hcond]
    rw [hc]
    exact hc

/-! ### Helper lemmas about stripping and containment -/

/-- An occurrence of a non-empty string made of characters the predicate
rejects survives `dropWhile`. -/
theorem occurrence_dropWhile_of_all_not (p : Char → Bool) (S : Str)
    (hS : S ≠ []) (hchar : ∀ x ∈ S, p x = false) :
    ∀ v : Str, S <:+: v → S <:+: v.dropWhile p := by
  intro v
  induction v with
  | nil =>
      intro h
      simpa using h
  | cons a t ih =>
      intro h
      by_cases hpa : p a = true
      · rw [List.dropWhile_cons_of_pos hpa]
        apply ih
        obtain ⟨pre, post, hsplit⟩ := h
        cases pre with
        | nil =>
            exfalso
            cases S with
            | nil => exact hS rfl
            | cons s0 S' =>
                simp at hsplit
                have hfalse : p s0 = false := hchar s0 (by simp)
                rw [hsplit.1, hpa] at hfalse
                exact Bool.noConfusion hfalse
        | cons b pre' =>
            simp at hsplit
            exact ⟨pre', post, by rw [List.append_assoc]; exact hsplit.2⟩
      · rw [List.dropWhile_cons_of_neg hpa]
        exact h

/-- The stripped string sits inside the original string. -/
theorem pyStrip_isPart (v : Str) : pyStrip v <:+: v := by
  unfold pyStrip
  have h1 : (v.dropWhile Char.isWhitespace) <:+ v := List.dropWhile_suffix _
  have h2 : ((v.dropWhile Char.isWhitespace).reverse.dropWhile Char.isWhitespace)
      <:+ (v.dropWhile Char.isWhitespace).reverse := List.dropWhile_suffix _
  have h3 : ((v.dropWhile Char.isWhitespace).reverse.dropWhile Char.isWhitespace).reverse
      <+: (v.dropWhile Char.isWhitespace) := by
    apply List.reverse_suffix.mp
    simpa using h2
  exact ( h3.isInfix).trans h1.isInfix

/-- Containment of a non-empty, whitespace-free string is invariant under
Python stripping. -/
theorem containsSub_pyStrip (S v : Str) (hS : S ≠ [])
    (hws : ∀ x ∈ S, x.isWhitespace = false) :
    containsSub S (pyStrip v) = containsSub S v := by
  by_cases h : containsSub S v = true
  · have hinf : S <:+: v := (containsSub_iff_isPart S v).mp h
    have step1 : S <:+: v.dropWhile Char.isWhitespace :=
      occurrence_dropWhile_of_all_not Char.isWhitespace S hS hws v hinf
    have step2 : S.reverse <:+: (v.dropWhile Char.isWhitespace).reverse := by
      rw [ List.reverse_infix]
      exact step1
    have hS' : S.reverse ≠ [] := by
      intro hcon
      exact hS (by simpa using hcon)
    have hws' : ∀ x ∈ S.reverse, x.isWhitespace = false := by
      intro x hx
      exact hws x (by simpa using hx)
    have step3 : S.reverse <:+:
        (v.dropWhile Char.isWhitespace).reverse.dropWhile Char.isWhitespace :=
      occurrence_dropWhile_of_all_not Char.isWhitespace S.reverse hS' hws' _ step2
    have step4 : S <:+: pyStrip v := by
      unfold pyStrip
      rw [← List.reverse_infix]
      simpa using step3
    rw [h, (containsSub_iff_isPart S (pyStrip v)).mpr step4]
  · have h' : containsSub S v = false := by
      revert h
      cases containsSub S v <;> simp
    rw [h']
    by_contra hcon
    have hcon' : containsSub S (pyStrip v) = true := by
      revert hcon
      cases containsSub S (pyStrip v) <;> simp
    have hinf : S <:+: pyStrip v := (containsSub_iff_isPart S (pyStrip v)).mp hcon'
    have : S <:+: v := hinf.trans (pyStrip_isPart v)
    rw [(containsSub_iff_isPart S v).mpr this] at h'
    exact absurd h' (by simp)

/-! ### Helper lemmas about message preparation -/

/-- Plugin processing never changes the role of a message. -/
theorem processPluginMsg_role (m : RawMsg) : (processPluginMsg m).role = m.role := by
  unfold processPluginMsg
  cases m.content <;> rfl

/-- Plugin processing unwraps a present content. -/
theorem processPluginMsg_content (m : RawMsg) (c : Str) (h : m.content = some c) :
    (processPluginMsg m).content = some (unwrapContent c) := by
  unfold processPluginMsg
  rw [h]

/-- Structure validation succeeds after plugin processing when every original
message carries both keys. -/
theorem validate_processPluginMessages (msgs : List RawMsg)
    (h : ∀ x ∈ msgs, x.role.isSome = true ∧ x.content.isSome = true) :
    validateMessageStructure (processPluginMessages msgs) = true := by
  unfold validateMessageStructure processPluginMessages
  rw [List.all_eq_true]
  intro m hm
  rw [List.mem_map] at hm
  obtain ⟨x, hx, hxm⟩ := hm
  obtain ⟨hr, hc⟩ := h x hx
  subst hxm
  rw [Bool.and_eq_true]
  constructor
  · rw [processPluginMsg_role]
    exact hr
  · cases hcx : x.content with
    | none => rw [hcx] at hc; simp at hc
    | some c => rw [processPluginMsg_content x c hcx]; rfl

/-- Conversion to the SAI format preserves the list length. -/
theorem convertToSaiFormatAux_length (base : Nat) :
    ∀ (i : Nat) (l : List RawMsg), (convertToSaiFormatAux base i l).length = l.length := by
  intro i l
  induction l generalizing i with
  | nil => rfl
  | cons m rest ih =>
      unfold convertToSaiFormatAux
      simp [ih]

/-- The last element of a converted list carries the content of the last
original message. -/
theorem convertToSaiFormatAux_getLast (base : Nat) :
    ∀ (i : Nat) (l : List RawMsg) (lm : RawMsg), l.getLast? = some lm →
      ∃ k, (convertToSaiFormatAux base i l).getLast?
        = some { content := lm.content.getD [], role := lm.role, id := k } := by
  intro i l
  induction l generalizing i with
  | nil => intro lm h; simp at h
  | cons m rest ih =>
      intro lm h
      cases rest with
      | nil =>
          simp at h
          subst h
          exact ⟨base + i, rfl⟩
      | cons m2 rest2 =>
          rw [List.getLast?_cons_cons] at h
          obtain ⟨k, hk⟩ := ih (i + 1) lm h
          refine ⟨k, ?_⟩
          have hexp : convertToSaiFormatAux base (i + 1) (m2 :: rest2)
              = { content := m2.content.getD [], role := m2.role, id := base + (i + 1) }
                  :: convertToSaiFormatAux base (i + 1 + 1) rest2 := rfl
          have houter : convertToSaiFormatAux base i (m :: m2 :: rest2)
              = { content := m.content.getD [], role := m.role, id := base + i }
                  :: convertToSaiFormatAux base (i + 1) (m2 :: rest2) := rfl
          rw [houter, hexp, List.getLast?_cons_cons, ← hexp]
          exact hk

/-- Unfolding of `prepareMessages` on a valid non-empty list. -/
theorem prepareMessages_eq (base : Nat) (m : RawMsg) (rest : List RawMsg)
    (hv : ∀ x ∈ m :: rest, x.role.isSome = true ∧ x.content.isSome = true) :
    prepareMessages base (m :: rest)
      = if m.role = some (("system").toList) then
          some ((processPluginMsg m).content.getD [],
                convertToSaiFormat base (processPluginMessages rest))
        else
          some ([], convertToSaiFormat base (processPluginMessages (m :: rest))) := by
  unfold prepareMessages
  have hval := validate_processPluginMessages (m :: rest) hv
  have hmap : processPluginMessages (m :: rest)
      = processPluginMsg m :: processPluginMessages rest := rfl
  rw [List.isEmpty_cons]
  simp only [Bool.false_eq_true, if_false]
  rw [hmap] at hval ⊢
  rw [hval]
  simp only [if_true]
  rw [processPluginMsg_role]

/-- C5 (amended): for every valid non-empty message list, preparation
succeeds; the upstream list is one shorter than the input when the first
message has role system and of equal length otherwise; the system prompt is
the first message content after plugin unwrapping in the former case and
empty in the latter. -/
theorem c5_prepare_messages (base : Nat) (m : RawMsg) (rest : List RawMsg)
    (hv : ∀ x ∈ m :: rest, x.role.isSome = true ∧ x.content.isSome = true) :
    ∃ sp out, prepareMessages base (m :: rest) = some (sp, out)
      ∧ out.length = (if m.role = some (("system").toList)
                      then rest.length else rest.length + 1)
      ∧ sp = (if m.role = some (("system").toList)
              then unwrapContent (m.content.getD []) else []) := by
  rw [prepareMessages_eq base m rest hv]
  by_cases hrole : m.role = some (("system").toList)
  · rw [if_pos hrole]
    refine ⟨_, _, rfl, ?_, ?_⟩
    · rw [if_pos hrole]
      unfold convertToSaiFormat processPluginMessages
      rw [convertToSaiFormatAux_length]
      simp
    · rw [if_pos hrole]
      obtain ⟨hr, hc⟩ := hv m (by simp)
      cases hcx : m.content with
      | none => rw [hcx] at hc; simp at hc
      | some c =>
          simp [processPluginMsg_content m c hcx, hcx]
  · rw [if_neg hrole]
    refine ⟨_, _, rfl, ?_, ?_⟩
    · rw [if_neg hrole]
      unfold convertToSaiFormat processPluginMessages
      rw [convertToSaiFormatAux_length]
      simp
    · rw [if_neg hrole]

/-- C5 witness: the amended statement evaluated on a concrete two-message
conversation. -/
theorem c5_prepare_messages_witness :
    ∃ sp out, prepareMessages 7 plainMsgs = some (sp, out)
      ∧ out.length = (if (({ role := some (("system").toList),
                             content := some (("S").toList) } : RawMsg)).role
                          = some (("system").toList)
                      then [({ role := some (("user").toList),
                               content := some (("hello").toList) } : RawMsg)].length
                      else [({ role := some (("user").toList),
                               content := some (("hello").toList) } : RawMsg)].length + 1)
      ∧ sp = (if (({ role := some (("system").toList),
                     content := some (("S").toList) } : RawMsg)).role
                  = some (("system").toList)
              then unwrapContent ((({ role := some (("system").toList),
                                      content := some (("S").toList) } : RawMsg)).content.getD [])
              else []) :=
  c5_prepare_messages 7
    { role := some (("system").toList), content := some (("S").toList) }
    [{ role := some (("user").toList), content := some (("hello").toList) }]
    (by decide)

/-- C5 counterexample: for the single plugin-wrapped system message the
returned system prompt is the unwrapped text X, not the original content of
the first message. -/
theorem c5_counterexample :
    prepareMessages 0 wrappedSystemMsgs = some ((("X").toList), [])
      ∧ (("X").toList : Str) ≠ wrappedX := by
  constructor
  · decide
  · decide

/-- An element returned by `getLast?` is a member of the list. -/
theorem mem_of_getLast?_eq (l : List RawMsg) (a : RawMsg)
    (h : l.getLast? = some a) : a ∈ l := by
  obtain ⟨hne, heq⟩ := @List.mem_getLast?_eq_getLast _ l a h
  subst heq
  exact List.getLast_mem hne

/-- The last processed message is the processed last message. -/
theorem processPluginMessages_getLast (l : List RawMsg) (a : RawMsg)
    (h : l.getLast? = some a) :
    (processPluginMessages l).getLast? = some (processPluginMsg a) := by
  unfold processPluginMessages
  rw [List.getLast?_map, h]
  rfl

/-- C10: for every valid non-empty message list, the unwrapped content of the
last input message is sent as the user input field; whenever the list has a
message whose role is not system, that same content is also the content of
the last element of the chatMessages field; a list consisting solely of a
system message sends its content both as system and as user input with
chatMessages omitted. -/
theorem c10_last_message_duplication (base : Nat) (m : RawMsg) (rest : List RawMsg)
    (hv : ∀ x ∈ m :: rest, x.role.isSome = true ∧ x.content.isSome = true) :
    ∃ p, completionPayload base (m :: rest) = some p
      ∧ (∀ lm, (m :: rest).getLast? = some lm →
            p.user = unwrapContent (lm.content.getD []))
      ∧ ((∃ x ∈ m :: rest, x.role ≠ some (("system").toList)) →
            ∃ l lmsg, p.chatMessages = some l ∧ l.getLast? = some lmsg
              ∧ lmsg.content = p.user)
      ∧ (rest = [] → m.role = some (("system").toList) →
            p.system = p.user ∧ p.chatMessages = none) := by
  obtain ⟨lm0, hlm0⟩ : ∃ lm0, (m :: rest).getLast? = some lm0 := by
    cases hl : (m :: rest).getLast? with
    | some x => exact ⟨x, rfl⟩
    | none =>
        have := List.getLast?_isSome.mpr (List.cons_ne_nil m rest)
        rw [hl] at this
        simp at this
  obtain ⟨clm, hclm⟩ : ∃ c, lm0.content = some c := by
    have hmem := mem_of_getLast?_eq _ _ hlm0
    have := (hv lm0 hmem).2
    cases hc : lm0.content with
    | some c => exact ⟨c, rfl⟩
    | none => rw [hc] at this; simp at this
  have hppmLast := processPluginMessages_getLast _ _ hlm0
  have huser : (processPluginMsg lm0).content.getD [] = unwrapContent clm := by
    rw [processPluginMsg_content lm0 clm hclm]
    rfl
  have hcp : completionPayload base (m :: rest)
      = match prepareMessages base (m :: rest) with
        | none => none
        | some (system, chat) =>
            some (buildPayload system ((processPluginMsg lm0).content.getD []) chat) := by
    unfold completionPayload
    rw [List.isEmpty_cons]
    simp only [Bool.false_eq_true, if_false]
    cases prepareMessages base (m :: rest) with
    | none => rfl
    | some pr =>
        cases pr with
        | mk system chat => rw [hppmLast]
  rw [prepareMessages_eq base m rest hv] at hcp
  by_cases hrole : m.role = some (("system").toList)
  · rw [if_pos hrole] at hcp
    have hcp2 : completionPayload base (m :: rest)
        = some (buildPayload ((processPluginMsg m).content.getD [])
            ((processPluginMsg lm0).content.getD [])
            (convertToSaiFormat base (processPluginMessages rest))) := hcp
    refine ⟨_, hcp2, ?_, ?_, ?_⟩
    · intro lm hlm
      rw [hlm0] at hlm
      cases hlm
      show (processPluginMsg lm0).content.getD [] = unwrapContent (lm0.content.getD [])
      simp [processPluginMsg_content lm0 clm hclm, hclm]
    · rintro ⟨x, hxmem, hxrole⟩
      have hrestne : rest ≠ [] := by
        intro hcon
        subst hcon
        rw [List.mem_singleton] at hxmem
        subst hxmem
        exact hxrole hrole
      cases rest with
      | nil => exact absurd rfl hrestne
      | cons r0 rest' =>
          have hrlast : (r0 :: rest').getLast? = some lm0 := by
            rw [List.getLast?_cons_cons] at hlm0
            exact hlm0
          have hppmRest := processPluginMessages_getLast _ _ hrlast
          obtain ⟨k, hk⟩ := convertToSaiFormatAux_getLast base 0
            (processPluginMessages (r0 :: rest')) (processPluginMsg lm0) hppmRest
          have hlen : (convertToSaiFormatAux base 0
              (processPluginMessages (r0 :: rest'))).length = rest'.length + 1 := by
            rw [convertToSaiFormatAux_length]
            simp [processPluginMessages]
          have hnonempty : (convertToSaiFormatAux base 0
              (processPluginMessages (r0 :: rest'))).isEmpty = false := by
            cases hemp : (convertToSaiFormatAux base 0
                (processPluginMessages (r0 :: rest'))).isEmpty with
            | false => rfl
            | true =>
                rw [List.isEmpty_iff] at hemp
                rw [hemp] at hlen
                simp at hlen
          refine ⟨_, _, ?_, hk, ?_⟩
          · show (buildPayload _ _ _).chatMessages = _
            simp [buildPayload, convertToSaiFormat, hnonempty]
          · show SaiMsg.content _ = (processPluginMsg lm0).content.getD []
            rfl
    · intro hrest _
      subst hrest
      have hm : m = lm0 := by
        have h1 : ([m] : List RawMsg).getLast? = some m := rfl
        rw [h1] at hlm0
        exact Option.some.inj hlm0
      subst hm
      exact ⟨rfl, rfl⟩
  · rw [if_neg hrole] at hcp
    have hcp2 : completionPayload base (m :: rest)
        = some (buildPayload []
            ((processPluginMsg lm0).content.getD [])
            (convertToSaiFormat base (processPluginMessages (m :: rest)))) := hcp
    refine ⟨_, hcp2, ?_, ?_, ?_⟩
    · intro lm hlm
      rw [hlm0] at hlm
      cases hlm
      show (processPluginMsg lm0).content.getD [] = unwrapContent (lm0.content.getD [])
      simp [processPluginMsg_content lm0 clm hclm, hclm]
    · intro _
      obtain ⟨k, hk⟩ := convertToSaiFormatAux_getLast base 0
        (processPluginMessages (m :: rest)) (processPluginMsg lm0) hppmLast
      have hlen : (convertToSaiFormatAux base 0
          (processPluginMessages (m :: rest))).length = rest.length + 1 := by
        rw [convertToSaiFormatAux_length]
        simp [processPluginMessages]
      have hnonempty : (convertToSaiFormatAux base 0
          (processPluginMessages (m :: rest))).isEmpty = false := by
        cases hemp : (convertToSaiFormatAux base 0
            (processPluginMessages (m :: rest))).isEmpty with
        | false => rfl
        | true =>
            rw [List.isEmpty_iff] at hemp
            rw [hemp] at hlen
            simp at hlen
      refine ⟨_, _, ?_, hk, ?_⟩
      · show (buildPayload _ _ _).chatMessages = _
        simp [buildPayload, convertToSaiFormat, hnonempty]
      · show SaiMsg.content _ = (processPluginMsg lm0).content.getD []
        rfl
    · intro _ hcon
      exact absurd hcon hrole

/-- C10 witness: the duplication statement evaluated on a concrete
conversation with a system prompt and a user message. -/
theorem c10_last_message_duplication_witness :
    ∃ p, completionPayload 7 plainMsgs = some p
      ∧ (∀ lm, plainMsgs.getLast? = some lm →
            p.user = unwrapContent (lm.content.getD []))
      ∧ ((∃ x ∈ plainMsgs, x.role ≠ some (("system").toList)) →
            ∃ l lmsg, p.chatMessages = some l ∧ l.getLast? = some lmsg
              ∧ lmsg.content = p.user)
      ∧ ([({ role := some (("user").toList),
             content := some (("hello").toList) } : RawMsg)] = [] →
            ({ role := some (("system").toList),
               content := some (("S").toList) } : RawMsg).role
              = some (("system").toList) →
            p.system = p.user ∧ p.chatMessages = none) :=
  c10_last_message_duplication 7
    { role := some (("system").toList), content := some (("S").toList) }
    [{ role := some (("user").toList), content := some (("hello").toList) }]
    (by decide)

/-! ### Helper lemmas about the streaming loop -/

/-- One-step unfolding of the chunk loop. -/
theorem streamChunksFrom_unfold (fr : Option Str) (t : Str) (idx start : Nat) :
    streamChunksFrom fr t idx start =
      if start < t.length then
        { text := (t.drop start).take 50, index := idx,
          is_final := decide (t.length ≤ start + 50),
          finish_reason := if t.length ≤ start + 50 then fr else none }
          :: streamChunksFrom fr t (idx + 1) (start + 50)
      else [] := by
  rw [streamChunksFrom]
  by_cases h : start < t.length
  · rw [dif_pos h, if_pos h]
  · rw [dif_neg h, if_neg h]

/-- Concatenating the chunk texts emitted from position `start` yields the
rest of the text from that position. -/
theorem streamChunksFrom_flatten (fr : Option Str) (t : Str) :
    ∀ (n idx start : Nat), t.length - start ≤ n →
      ((streamChunksFrom fr t idx start).map Chunk.text).flatten = t.drop start := by
  intro n
  induction n with
  | zero =>
      intro idx start hn
      have hge : ¬ start < t.length := by omega
      rw [streamChunksFrom_unfold, if_neg hge]
      rw [List.drop_eq_nil_of_le (by omega)]
      rfl
  | succ n ih =>
      intro idx start hn
      by_cases h : start < t.length
      · rw [streamChunksFrom_unfold, if_pos h]
        rw [List.map_cons, List.flatten_cons]
        rw [ih (idx + 1) (start + 50) (by omega)]
        have hdd : t.drop (start + 50) = (t.drop start).drop 50 := by
          rw [List.drop_drop]
        rw [hdd, List.take_append_drop]
      · rw [streamChunksFrom_unfold, if_neg h]
        rw [List.drop_eq_nil_of_le (by omega)]
        rfl

/-- From any in-range position the loop emits a non-empty chunk list whose
last element is final and carries the finish reason, while all earlier
elements are not final and carry no finish reason. -/
theorem streamChunksFrom_final (fr : Option Str) (t : Str) :
    ∀ (n idx start : Nat), t.length - start ≤ n → start < t.length →
      ∃ last, (streamChunksFrom fr t idx start).getLast? = some last
        ∧ last.is_final = true ∧ last.finish_reason = fr
        ∧ ∀ c ∈ (streamChunksFrom fr t idx start).dropLast,
            c.is_final = false ∧ c.finish_reason = none := by
  intro n
  induction n with
  | zero =>
      intro idx start hn h
      omega
  | succ n ih =>
      intro idx start hn h
      rw [streamChunksFrom_unfold, if_pos h]
      by_cases h2 : t.length ≤ start + 50
      · have hrest : streamChunksFrom fr t (idx + 1) (start + 50) = [] := by
          rw [streamChunksFrom_unfold, if_neg (by omega)]
        rw [hrest]
        refine ⟨_, rfl, ?_, ?_, ?_⟩
        · exact decide_eq_true h2
        · rw [if_pos h2]
          rfl
        · intro c hc
          simp at hc
      · obtain ⟨last, hlast, hfin, hfr, hdrop⟩ :=
          ih (idx + 1) (start + 50) (by omega) (by omega)
        cases hr : streamChunksFrom fr t (idx + 1) (start + 50) with
        | nil => rw [hr] at hlast; simp at hlast
        | cons r rs =>
            rw [hr] at hlast hdrop
            refine ⟨last, ?_, hfin, hfr, ?_⟩
            · rw [List.getLast?_cons_cons]
              exact hlast
            · rw [List.dropLast_cons₂]
              intro c hc
              rw [List.mem_cons] at hc
              cases hc with
              | inl hc =>
                  subst hc
                  exact ⟨decide_eq_false h2, if_neg h2⟩
              | inr hc => exact hdrop c hc

/-- Chunk indices are consecutive, starting at the initial index. -/
theorem streamChunksFrom_index (fr : Option Str) (t : Str) :
    ∀ (n idx start : Nat), t.length - start ≤ n →
      ∀ (i : Nat) (hi : i < (streamChunksFrom fr t idx start).length),
        ((streamChunksFrom fr t idx start).get ⟨i, hi⟩).index = idx + i := by
  intro n
  induction n with
  | zero =>
      intro idx start hn i hi
      rw [streamChunksFrom_unfold, if_neg (by omega)] at hi
      simp at hi
  | succ n ih =>
      intro idx start hn i hi
      by_cases h : start < t.length
      · revert hi
        rw [streamChunksFrom_unfold, if_pos h]
        intro hi
        match i with
        | 0 => rfl
        | i' + 1 =>
            rw [List.get_cons_succ]
            rw [ih (idx + 1) (start + 50) (by omega) i' (Nat.lt_of_succ_lt_succ hi)]
            omega
      · revert hi
        rw [streamChunksFrom_unfold, if_neg h]
        intro hi
        simp at hi

/-- C6 (amended): for every non-empty completion text, concatenating the
chunk texts in index order reproduces the text exactly, the chunk indices
are consecutive from zero, and exactly one chunk is final — the last one —
while all chunks before it carry no finish reason; the empty completion
text produces no chunks at all. -/
theorem c6_streaming_chunks (fr : Option Str) (t : Str) (hne : t ≠ []) :
    ((streamChunks fr t).map Chunk.text).flatten = t
      ∧ (∀ (i : Nat) (hi : i < (streamChunks fr t).length),
            ((streamChunks fr t).get ⟨i, hi⟩).index = i)
      ∧ (∃ last, (streamChunks fr t).getLast? = some last
            ∧ last.is_final = true ∧ last.finish_reason = fr
            ∧ ∀ c ∈ (streamChunks fr t).dropLast,
                c.is_final = false ∧ c.finish_reason = none) := by
  have hpos : 0 < t.length := by
    cases t with
    | nil => exact absurd rfl hne
    | cons a l => simp
  refine ⟨?_, ?_, ?_⟩
  · have := streamChunksFrom_flatten fr t t.length 0 0 (by omega)
    rw [List.drop_zero] at this
    exact this
  · intro i hi
    have h0 := streamChunksFrom_index fr t t.length 0 0 (by omega) i hi
    rw [Nat.zero_add] at h0
    exact h0
  · exact streamChunksFrom_final fr t t.length 0 0 (by omega) hpos

/-- C6 witness: the amended statement evaluated on the non-empty text hola. -/
theorem c6_streaming_chunks_witness :
    ((streamChunks (some (("stop").toList)) (("hola").toList)).map Chunk.text).flatten
        = (("hola").toList)
      ∧ (∀ (i : Nat) (hi : i < (streamChunks (some (("stop").toList)) (("hola").toList)).length),
            ((streamChunks (some (("stop").toList)) (("hola").toList)).get ⟨i, hi⟩).index = i)
      ∧ (∃ last, (streamChunks (some (("stop").toList)) (("hola").toList)).getLast? = some last
            ∧ last.is_final = true ∧ last.finish_reason = some (("stop").toList)
            ∧ ∀ c ∈ (streamChunks (some (("stop").toList)) (("hola").toList)).dropLast,
                c.is_final = false ∧ c.finish_reason = none) :=
  c6_streaming_chunks (some (("stop").toList)) (("hola").toList) (by decide)

/-- C6 counterexample: the empty completion text yields no chunks, so no
chunk at all has is_final true — the claim fails for the empty text. -/
theorem c6_counterexample :
    ¬ ((streamChunks (some (("stop").toList)) []).countP (fun c => c.is_final) = 1) := by
  have h : streamChunks (some (("stop").toList)) ([] : Str) = [] := by
    rw [streamChunks, streamChunksFrom_unfold]
    simp
  rw [h]
  simp

/-! ### Helper lemmas about the request engine -/

/-- A truthy optional string is present. -/
theorem truthy_isSome (o : Option Str) (h : truthy o = true) : o.isSome = true := by
  cases o with
  | none => exact Bool.noConfusion h
  | some s => rfl

/-- Header selection picks exactly one credential header. -/
theorem setupRequestHeaders_exclusive (cfg : Config) (u : Bool) (a c : Option Str)
    (h : AuthHeaders) (hs : setupRequestHeaders cfg u a c = some h) :
    (h.xApiKey.isSome = true ∧ h.cookie = none)
      ∨ (h.xApiKey = none ∧ h.cookie.isSome = true) := by
  unfold setupRequestHeaders at hs
  split_ifs at hs
  all_goals
    first
      | exact Option.noConfusion hs
      | (have hsub := Option.some.inj hs
         subst hsub
         first
           | exact Or.inl ⟨rfl, rfl⟩
           | exact Or.inr ⟨rfl, truthy_isSome _ (by assumption)⟩)

/-- Every header set in the trace of one `_make_request` call was produced by
`_setup_request_headers`. -/
theorem makeRequest_trace_mem (cfg : Config) (server : Payload → AuthHeaders → HttpResult)
    (payload : Payload) (u : Bool) (a c : Option Str) (h : AuthHeaders)
    (hmem : h ∈ (makeRequest cfg server payload u a c).2) :
    setupRequestHeaders cfg u a c = some h := by
  unfold makeRequest at hmem
  cases hsetup : setupRequestHeaders cfg u a c with
  | none =>
      simp only [hsetup] at hmem
      simp at hmem
  | some hd =>
      simp only [hsetup] at hmem
      have hh : h = hd := by
        cases hserv : server payload hd with
        | ok body respHeaders => simp only [hserv] at hmem; simpa using hmem
        | httpError status body => simp only [hserv] at hmem; simpa using hmem
        | timeout => simp only [hserv] at hmem; simpa using hmem
        | networkError => simp only [hserv] at hmem; simpa using hmem
      rw [hh]

/-- The trace of a translated call is the trace of the retry engine. -/
theorem callSai_trace (cfg : Config) (server : Payload → AuthHeaders → HttpResult)
    (system user : Str) (chat : List SaiMsg) (uak : Option Str) :
    (callSai cfg server system user chat uak).2
      = (executeRequestWithRetry cfg server (buildPayload system user chat)
          (determineAuthMethod cfg uak).1 (determineAuthMethod cfg uak).2.1 uak).2 := by
  unfold callSai
  dsimp only
  split <;> rfl

/-- Every header set in the retry-engine trace came from one of the three
`_make_request` call shapes. -/
theorem executeRequestWithRetry_trace_mem (cfg : Config)
    (server : Payload → AuthHeaders → HttpResult) (payload : Payload)
    (cc ak uak : Option Str) (h : AuthHeaders)
    (hmem : h ∈ (executeRequestWithRetry cfg server payload cc ak uak).2) :
    h ∈ (makeRequest cfg server payload false none cc).2
      ∨ h ∈ (makeRequest cfg server payload true ak none).2
      ∨ h ∈ (makeRequest cfg server payload false none none).2 := by
  unfold executeRequestWithRetry at hmem
  by_cases h1 : truthy cc = true
  · simp only [h1, if_true] at hmem
    left
    exact hmem
  · simp only [h1, Bool.false_eq_true, if_false] at hmem
    by_cases h2 : truthy ak = true
    · simp only [h2, if_true] at hmem
      by_cases h3 : (makeRequest cfg server payload true ak none).1.1
          = some UNAUTHORIZED_ERROR
      · simp only [if_pos h3] at hmem
        right; left
        exact hmem
      · simp only [if_neg h3] at hmem
        by_cases h4 : ((makeRequest cfg server payload true ak none).1.1 = none
            && truthy cfg.saiCookie) = true
        · simp only [h4, if_true] at hmem
          rw [List.mem_append] at hmem
          cases hmem with
          | inl hmem => right; left; exact hmem
          | inr hmem => right; right; exact hmem
        · simp only [h4, Bool.false_eq_true, if_false] at hmem
          right; left
          exact hmem
    · simp only [h2, Bool.false_eq_true, if_false] at hmem
      right; right
      exact hmem

/-- C4: every outbound HTTP request issued by the engine — primary or
fallback, with any combination of caller and default credentials — carries
exactly one of the X-Api-Key and Cookie headers: never both, and never
neither when a request is actually issued. -/
theorem c4_exclusive_auth_header (cfg : Config)
    (server : Payload → AuthHeaders → HttpResult) (system user : Str)
    (chat : List SaiMsg) (uak : Option Str) (h : AuthHeaders)
    (hmem : h ∈ (callSai cfg server system user chat uak).2) :
    (h.xApiKey.isSome = true ∧ h.cookie = none)
      ∨ (h.xApiKey = none ∧ h.cookie.isSome = true) := by
  rw [callSai_trace] at hmem
  have hcases := executeRequestWithRetry_trace_mem cfg server
    (buildPayload system user chat) (determineAuthMethod cfg uak).1
    (determineAuthMethod cfg uak).2.1 uak h hmem
  cases hcases with
  | inl hc =>
      exact setupRequestHeaders_exclusive cfg false none _ h
        (makeRequest_trace_mem _ _ _ _ _ _ _ hc)
  | inr hc =>
      cases hc with
      | inl hc =>
          exact setupRequestHeaders_exclusive cfg true _ none h
            (makeRequest_trace_mem _ _ _ _ _ _ _ hc)
      | inr hc =>
          exact setupRequestHeaders_exclusive cfg false none none h
            (makeRequest_trace_mem _ _ _ _ _ _ _ hc)

/-- C4 witness: the exclusivity statement evaluated on the key header of a
concrete issued call. -/
theorem c4_exclusive_auth_header_witness :
    ((({ xApiKey := some (("k1").toList), cookie := none } : AuthHeaders)).xApiKey.isSome = true
        ∧ (({ xApiKey := some (("k1").toList), cookie := none } : AuthHeaders)).cookie = none)
      ∨ ((({ xApiKey := some (("k1").toList), cookie := none } : AuthHeaders)).xApiKey = none
        ∧ (({ xApiKey := some (("k1").toList), cookie := none } : AuthHeaders)).cookie.isSome = true) :=
  c4_exclusive_auth_header cfgBoth server401 [] [] [] none
    { xApiKey := some (("k1").toList), cookie := none } (by decide)

/-- Evaluation of one `_make_request` call against an upstream that always
answers HTTP 401. -/
theorem makeRequest_of_401 (cfg : Config) (server : Payload → AuthHeaders → HttpResult)
    (payload : Payload) (u : Bool) (a c : Option Str) (body : Str)
    (hs : ∀ p hd, server p hd = .httpError 401 body) :
    makeRequest cfg server payload u a c
      = match setupRequestHeaders cfg u a c with
        | none => ((none, none), [])
        | some hd => ((some UNAUTHORIZED_ERROR, none), [hd]) := by
  unfold makeRequest
  cases hsetup : setupRequestHeaders cfg u a c with
  | none => rfl
  | some hd =>
      dsimp only
      rw [hs payload hd]
      dsimp only
      have hcl : classifyHttpError 401 body = (some UNAUTHORIZED_ERROR, none) := by
        unfold classifyHttpError
        rw [if_pos rfl]
      rw [hcl]

/-- C3: when the upstream answers the primary attempt with HTTP 401, no
second HTTP call is issued — the attempt chain stops at one call — and the
outcome is translated into a finish_reason error result. -/
theorem c3_401_terminal (cfg : Config) (server : Payload → AuthHeaders → HttpResult)
    (system user : Str) (chat : List SaiMsg) (uak : Option Str) (body : Str)
    (hs : ∀ p hd, server p hd = .httpError 401 body) :
    (callSai cfg server system user chat uak).2.length ≤ 1
      ∧ ((callSai cfg server system user chat uak).2 ≠ [] →
          (callSai cfg server system user chat uak).1.2.1 = ("error").toList) := by
  have hmk : ∀ (u : Bool) (a c : Option Str),
      makeRequest cfg server (buildPayload system user chat) u a c
        = match setupRequestHeaders cfg u a c with
          | none => ((none, none), [])
          | some hd => ((some UNAUTHORIZED_ERROR, none), [hd]) :=
    fun u a c => makeRequest_of_401 cfg server _ u a c body hs
  have hrun : ∃ resp am tr,
      executeRequestWithRetry cfg server (buildPayload system user chat)
        (determineAuthMethod cfg uak).1 (determineAuthMethod cfg uak).2.1 uak
        = ((resp, none, am), tr)
      ∧ tr.length ≤ 1 ∧ (resp = some UNAUTHORIZED_ERROR ∨ resp = none) := by
    unfold executeRequestWithRetry
    rw [hmk false none (determineAuthMethod cfg uak).1,
        hmk true (determineAuthMethod cfg uak).2.1 none,
        hmk false none none]
    by_cases h1 : truthy (determineAuthMethod cfg uak).1 = true
    · simp only [h1, if_true]
      cases hsetup : setupRequestHeaders cfg false none (determineAuthMethod cfg uak).1 with
      | none => exact ⟨none, _, [], rfl, by simp, Or.inr rfl⟩
      | some hd => exact ⟨some UNAUTHORIZED_ERROR, _, [hd], rfl, by simp, Or.inl rfl⟩
    · simp only [h1, Bool.false_eq_true, if_false]
      by_cases h2 : truthy (determineAuthMethod cfg uak).2.1 = true
      · simp only [h2, if_true]
        cases hsetup : setupRequestHeaders cfg true (determineAuthMethod cfg uak).2.1 none with
        | none =>
            rw [if_neg (by simp)]
            by_cases h3 : truthy cfg.saiCookie = true
            · rw [if_pos (by simp [h3])]
              cases hsetup2 : setupRequestHeaders cfg false none none with
              | none => exact ⟨none, _, [], rfl, by simp, Or.inr rfl⟩
              | some hd2 => exact ⟨some UNAUTHORIZED_ERROR, _, [hd2], rfl, by simp, Or.inl rfl⟩
            · rw [if_neg (by simp [h3])]
              exact ⟨none, _, [], rfl, by simp, Or.inr rfl⟩
        | some hd =>
            rw [if_pos rfl]
            exact ⟨some UNAUTHORIZED_ERROR, _, [hd], rfl, by simp, Or.inl rfl⟩
      · simp only [h2, Bool.false_eq_true, if_false]
        cases hsetup : setupRequestHeaders cfg false none none with
        | none => exact ⟨none, _, [], rfl, by simp, Or.inr rfl⟩
        | some hd => exact ⟨some UNAUTHORIZED_ERROR, _, [hd], rfl, by simp, Or.inl rfl⟩
  obtain ⟨resp, am, tr, hrun, htr, hresp⟩ := hrun
  have hcall : callSai cfg server system user chat uak
      = match handleErrorResponse resp am chat.length with
        | some err => (err, tr)
        | none => ((resp.getD [], ("stop").toList, updateUsageData none), tr) := by
    unfold callSai
    dsimp only
    rw [hrun]
  cases hresp with
  | inl hresp =>
      subst hresp
      have hher : handleErrorResponse (some UNAUTHORIZED_ERROR) am chat.length
          = some (buildAuthErrorMessage am, ("error").toList, zeroUsage) := by
        unfold handleErrorResponse
        rw [if_pos rfl]
      rw [hher] at hcall
      rw [hcall]
      exact ⟨htr, fun _ => rfl⟩
  | inr hresp =>
      subst hresp
      have hher : handleErrorResponse none am chat.length
          = some (msgNoResponse, ("error").toList, zeroUsage) := by
        unfold handleErrorResponse
        rfl
      rw [hher] at hcall
      rw [hcall]
      exact ⟨htr, fun _ => rfl⟩

/-- C3 witness: the 401 statement evaluated on a concrete configuration
against the constant-401 upstream. -/
theorem c3_401_terminal_witness :
    (callSai cfgBoth server401 [] [] [] none).2.length ≤ 1
      ∧ ((callSai cfgBoth server401 [] [] [] none).2 ≠ [] →
          (callSai cfgBoth server401 [] [] [] none).1.2.1 = ("error").toList) :=
  c3_401_terminal cfgBoth server401 [] [] [] none [] (fun _ _ => rfl)

/-- C1: evaluation at the failing input — the primary Key attempt receives
HTTP 429 with a body that does not contain the test-template rate-limit
message while a default cookie is configured.  The engine issues a second
(Cookie) HTTP call and returns its successful result, instead of stopping
after one call with a no-response error as claimed. -/
theorem c1_429_other_body_still_retries :
    (callSai cfgBoth server429Other [] [] [] none).2.length = 2
      ∧ (callSai cfgBoth server429Other [] [] [] none).1.2.1 = ("stop").toList := by
  constructor
  · decide
  · decide

/-- C2: evaluation at the failing input — the primary Key attempt fails with
a transport-level timeout (not the specific rate-limit condition) while a
default cookie is configured, yet the Key to Cookie fallback fires: two
calls are issued, the second carrying the default cookie. -/
theorem c2_fallback_fires_without_rate_limit :
    (callSai cfgBoth serverTimeoutKey [] [] [] none).2
      = [{ xApiKey := some (("k1").toList), cookie := none },
         { xApiKey := none, cookie := some (("ck1").toList) }] := by
  decide

/-- C8: a caller-supplied credential equal to raspberry case-insensitively
after trimming, or empty after trimming, is treated as absent and the
process default credential path is taken; an accepted value containing the
substring Cookies is attached to the outbound request as the Cookie header,
and any other accepted value as the X-Api-Key header. -/
theorem c8_credential_classification (cfg : Config) (v : Str) :
    (((pyStrip v).isEmpty = true ∨ pyLower (pyStrip v) = ("raspberry").toList) →
        extractUserApiKey (some v) = none
          ∧ determineAuthMethod cfg (extractUserApiKey (some v))
              = (none, cfg.saiKey, ("API Key por defecto").toList))
    ∧ (∀ w, extractUserApiKey (some v) = some w →
        (containsSub (("Cookies").toList) v = true →
            (determineAuthMethod cfg (some w)).1 = some w
              ∧ (determineAuthMethod cfg (some w)).2.1 = none
              ∧ setupRequestHeaders cfg false none (some w)
                  = some { xApiKey := none, cookie := some w })
        ∧ (containsSub (("Cookies").toList) v = false →
            (determineAuthMethod cfg (some w)).1 = none
              ∧ (determineAuthMethod cfg (some w)).2.1 = some w
              ∧ setupRequestHeaders cfg true (some w) none
                  = some { xApiKey := some w, cookie := none })) := by
  constructor
  · intro hpre
    have hval : isValidApiKey v = false := by
      unfold isValidApiKey
      rcases hpre with hpre | hpre
      · simp [hpre]
      · simp [hpre]
    have hext : extractUserApiKey (some v) = none := by
      unfold extractUserApiKey
      simp [hval]
    refine ⟨hext, ?_⟩
    rw [hext]
    rfl
  · intro w hw
    have hpair : isValidApiKey v = true ∧ w = pyStrip v := by
      unfold extractUserApiKey at hw
      by_cases hv : isValidApiKey v = true
      · simp [hv] at hw
        exact ⟨hv, hw.symm⟩
      · simp [hv] at hw
    have hwempty : (pyStrip v).isEmpty = false := by
      by_contra hcon
      have h1 : (pyStrip v).isEmpty = true := by
        revert hcon
        cases (pyStrip v).isEmpty <;> simp
      have h2 : isValidApiKey v = false := by
        unfold isValidApiKey
        simp [h1]
      rw [hpair.1] at h2
      exact Bool.noConfusion h2
    have htruthy : truthy (some w) = true := by
      have hdef : truthy (some w) = !w.isEmpty := rfl
      rw [hdef, hpair.2, hwempty]
      rfl
    constructor
    · intro hcook
      have hcw : containsSub (("Cookies").toList) w = true := by
        rw [hpair.2, containsSub_pyStrip _ _ (by decide) (by decide)]
        exact hcook
      have hd : determineAuthMethod cfg (some w)
          = (some w, none, ("Cookie personalizada").toList) := by
        unfold determineAuthMethod
        rw [htruthy, Bool.true_and, Option.getD_some, hcw]
        rw [if_pos rfl]
      refine ⟨by rw [hd], by rw [hd], ?_⟩
      unfold setupRequestHeaders
      simp [htruthy]
    · intro hcook
      have hcw : containsSub (("Cookies").toList) w = false := by
        rw [hpair.2, containsSub_pyStrip _ _ (by decide) (by decide)]
        exact hcook
      have hd : determineAuthMethod cfg (some w)
          = (none, some w, ("API Key personalizada").toList) := by
        unfold determineAuthMethod
        rw [htruthy, Bool.true_and, Option.getD_some, hcw]
        rw [if_neg (by simp)]
        simp
      refine ⟨by rw [hd], by rw [hd], ?_⟩
      unfold setupRequestHeaders
      simp [htruthy]

/-- C8 witness: classification of the concrete accepted value Cookies123. -/
theorem c8_credential_classification_witness :
    (determineAuthMethod cfgBoth (some (("Cookies123").toList))).1
        = some (("Cookies123").toList)
      ∧ (determineAuthMethod cfgBoth (some (("Cookies123").toList))).2.1 = none
      ∧ setupRequestHeaders cfgBoth false none (some (("Cookies123").toList))
          = some { xApiKey := none, cookie := some (("Cookies123").toList) } :=
  ((c8_credential_classification cfgBoth (("Cookies123").toList)).2
      (("Cookies123").toList) (by decide)).1 (by decide)

/-- C9: on the success path the usage record satisfies
total = prompt + completion, with each token count defaulting to zero when
its upstream header is missing or non-numeric and the model taken from the
upstream header or unknown; every failure outcome produced by the error
translator carries the all-zero usage record with model unknown. -/
theorem c9_usage_accounting :
    (∀ h : RespHeaders,
        (updateUsageData (some (extractResponseHeaders h))).total_tokens
            = (updateUsageData (some (extractResponseHeaders h))).prompt_tokens
              + (updateUsageData (some (extractResponseHeaders h))).completion_tokens
          ∧ (updateUsageData (some (extractResponseHeaders h))).model
              = h.model.getD (("unknown").toList)
          ∧ (h.prompttokens = none →
              (updateUsageData (some (extractResponseHeaders h))).prompt_tokens = 0)
          ∧ (∀ s, h.prompttokens = some s → strToIntOpt s = none →
              (updateUsageData (some (extractResponseHeaders h))).prompt_tokens = 0)
          ∧ (h.completiontokens = none →
              (updateUsageData (some (extractResponseHeaders h))).completion_tokens = 0)
          ∧ (∀ s, h.completiontokens = some s → strToIntOpt s = none →
              (updateUsageData (some (extractResponseHeaders h))).completion_tokens = 0))
    ∧ (∀ r a n e, handleErrorResponse r a n = some e → e.2.2 = zeroUsage) := by
  constructor
  · intro h
    refine ⟨rfl, rfl, ?_, ?_, ?_, ?_⟩
    · intro hp
      simp [updateUsageData, extractResponseHeaders, parseTokenHeader, hp]
    · intro s hs hn
      simp [updateUsageData, extractResponseHeaders, parseTokenHeader, hs, hn]
    · intro hp
      simp [updateUsageData, extractResponseHeaders, parseTokenHeader, hp]
    · intro s hs hn
      simp [updateUsageData, extractResponseHeaders, parseTokenHeader, hs, hn]
  · intro r a n e he
    unfold handleErrorResponse at he
    split_ifs at he
    all_goals
      first
        | exact Option.noConfusion he
        | (have h2 := Option.some.inj he
           subst h2
           rfl)

/-- C9 witness: the accounting statement evaluated on empty upstream headers
and on the concrete no-response failure. -/
theorem c9_usage_accounting_witness :
    ((updateUsageData (some (extractResponseHeaders noHeaders))).total_tokens
        = (updateUsageData (some (extractResponseHeaders noHeaders))).prompt_tokens
          + (updateUsageData (some (extractResponseHeaders noHeaders))).completion_tokens)
      ∧ (msgNoResponse, ("error").toList, zeroUsage).2.2 = zeroUsage :=
  ⟨(c9_usage_accounting.1 noHeaders).1,
   c9_usage_accounting.2 none [] 0 (msgNoResponse, ("error").toList, zeroUsage) (by rfl)⟩

end SAI
